import Mathlib

/-!
Verification of the Seoulfie Drive-gallery application (`src/app.py`) against
its natural-language specification.

The Python source is shallowly embedded: pure computations become Lean
functions, the retry loop becomes a recursive function that also records a
trace of its attempts and sleeps, the memoizing cache layer becomes explicit
state passing over an association list, and the per-image isolation in the
gallery renderer becomes a function from a fallible loader to a list of
rendered cells.  Strings keep their Python comparison semantics by working on
the underlying character lists.
-/

namespace Seoulfie

/-- A Drive folder as listed by the application: a studio (root) or a
session (subfolder).  Identity is the Drive file id. -/
structure Folder where
  id : String
  name : String
deriving DecidableEq, Repr

/-- One listed image: metadata only, not its bytes
(`files(id, name, mimeType)` in `list_images`). -/
structure ImageDescriptor where
  id : String
  name : String
  mimeType : String
deriving DecidableEq, Repr

/-! ## Pagination (src/app.py lines 169-176)

`total_pages = max(1, (total + page_size - 1) // page_size)`,
`start = (page - 1) * page_size`, `end = min(start + page_size, total)`,
`images_page = images[start:end]`. -/

/-- `total_pages = max(1, (total + page_size - 1) // page_size)`. -/
def total_pages (total page_size : Nat) : Nat :=
  max 1 ((total + page_size - 1) / page_size)

/-- `start = (page - 1) * page_size`. -/
def page_start (page page_size : Nat) : Nat :=
  (page - 1) * page_size

/-- `end = min(start + page_size, total)`. -/
def page_end (page page_size total : Nat) : Nat :=
  min (page_start page page_size + page_size) total

/-- `images_page = images[start:end]`: the Python slice, i.e. take the first
`end` elements and drop the first `start` of those. -/
def pageSlice (images : List α) (page page_size : Nat) : List α :=
  (images.take (page_end page page_size images.length)).drop (page_start page page_size)

/-- Modelled from the spec: the Streamlit `number_input` widget is library
code outside this repository.  Per the spec, when its bounds are recomputed
the widget does not reset the page but clamps the prior value into
`[min_value, max_value]`; with no prior value it starts at the default. -/
def number_input (minVal maxVal defaultVal : Nat) (prior : Option Nat) : Nat :=
  min maxVal (max minVal (prior.getD defaultVal))

/-- The page widget of src/app.py line 172:
`st.sidebar.number_input("Page", min_value=1, max_value=total_pages, value=1)`. -/
def page_widget (prior : Option Nat) (total page_size : Nat) : Nat :=
  number_input 1 (total_pages total page_size) 1 prior

/-! ## The download retry loop (src/app.py lines 63-88)

`download_image_bytes` runs `for attempt in range(3)`: on success it returns
the accumulated bytes; on `ssl.SSLError` it records the error and sleeps
`0.8`; on any other exception it records the error and sleeps `0.5`; after
the loop it re-raises the last recorded error.  The underlying Drive call is
embedded as a function from the attempt number to that attempt`s outcome, and
the loop additionally records a trace of attempts and sleeps. -/

/-- The two classes of exception distinguished by the retry loop:
`ssl.SSLError` versus every other exception. -/
inductive DlError where
  | sslError (msg : String)
  | otherError (msg : String)
deriving DecidableEq, Repr

/-- Outcome of one underlying download attempt: the full bytes, or a raised
exception. -/
inductive AttemptResult (β : Type) where
  | success (val : β)
  | failure (err : DlError)
deriving DecidableEq, Repr

/-- The sleep duration chosen inside the `except` arms:
`time.sleep(0.8)` after `ssl.SSLError`, `time.sleep(0.5)` otherwise. -/
def backoff : DlError → ℚ
  | .sslError _ => 8 / 10
  | .otherError _ => 5 / 10

/-- Observable events of one run of `download_image_bytes`: an invocation of
the underlying Drive download for a given attempt number, or a
`time.sleep` of the given duration. -/
inductive TraceEvent where
  | attemptCall (k : Nat)
  | sleep (duration : ℚ)

/-- Whether a trace event is an invocation of the underlying download. -/
def TraceEvent.isAttempt : TraceEvent → Bool
  | .attemptCall _ => true
  | .sleep _ => false

/-- The body of `for attempt in range(3)` over the remaining attempt numbers,
threading `last_error`; returns the result (`.error` models the final
`raise last_error`, which re-raises `None` only if the loop never ran) and
the trace of attempts and sleeps. -/
def downloadLoop (attempt : Nat → AttemptResult β) :
    List Nat → Option DlError → Except (Option DlError) β × List TraceEvent
  | [], lastError => (.error lastError, [])
  | k :: ks, _ =>
    match attempt k with
    | .success v => (.ok v, [.attemptCall k])
    | .failure e =>
      let rest := downloadLoop attempt ks (some e)
      (rest.1, .attemptCall k :: .sleep (backoff e) :: rest.2)

/-- `download_image_bytes`: run the retry loop over `range(3)` with
`last_error = None`. -/
def download_image_bytes (attempt : Nat → AttemptResult β) :
    Except (Option DlError) β × List TraceEvent :=
  downloadLoop attempt (List.range 3) none

/-! ## Cached query layer (src/app.py lines 32-63)

The four read operations are decorated with `@st.cache_data`:
`get_folder_name`, `list_folders` and `list_images` with `ttl=300`, and
`download_image_bytes` with no `ttl`.  The decorator parameters below are
read off the source; the memoization behaviour of `st.cache_data` itself is
library code outside this repository and is modelled from the spec. -/

/-- `@st.cache_data(show_spinner=False, ttl=300)` on `get_folder_name`. -/
def get_folder_name_ttl : Option Nat := some 300

/-- `@st.cache_data(show_spinner=False, ttl=300)` on `list_folders`. -/
def list_folders_ttl : Option Nat := some 300

/-- `@st.cache_data(show_spinner=False, ttl=300)` on `list_images`. -/
def list_images_ttl : Option Nat := some 300

/-- `@st.cache_data(show_spinner=False)` on `download_image_bytes`: no
time-to-live. -/
def download_image_bytes_ttl : Option Nat := none

/-- Modelled from the spec: one entry of the `st.cache_data` store — the
cached value and the time it was stored. -/
structure CacheEntry (β : Type) where
  value : β
  storedAt : Nat
deriving DecidableEq, Repr

/-- Modelled from the spec: an entry with no time-to-live never expires; an
entry with time-to-live `t` is fresh while its age is below `t` seconds. -/
def entryFresh (ttl : Option Nat) (now storedAt : Nat) : Bool :=
  match ttl with
  | none => true
  | some t => now < storedAt + t

/-- Modelled from the spec: one memoized call.  A fresh cached entry for the
key is returned without invoking the underlying operation; otherwise the
operation runs and its result overwrites the entry.  Returns the result, the
new cache, and whether a network call was made. -/
def cachedCall (ttl : Option Nat) (fetch : String → β) (key : String) (now : Nat)
    (cache : List (String × CacheEntry β)) :
    β × List (String × CacheEntry β) × Bool :=
  match cache.lookup key with
  | some entry =>
    if entryFresh ttl now entry.storedAt then (entry.value, cache, false)
    else
      let v := fetch key
      (v, (key, ⟨v, now⟩) :: cache, true)
  | none =>
    let v := fetch key
    (v, (key, ⟨v, now⟩) :: cache, true)

/-- A sequence of memoized calls with the same key at the given times:
returns the list of results, the final cache, and how many underlying
network calls were made. -/
def callSeq (ttl : Option Nat) (fetch : String → β) (key : String) :
    List Nat → List (String × CacheEntry β) →
    List β × List (String × CacheEntry β) × Nat
  | [], cache => ([], cache, 0)
  | t :: ts, cache =>
    let r1 := cachedCall ttl fetch key t cache
    let r2 := callSeq ttl fetch key ts r1.2.1
    (r1.1 :: r2.1, r2.2.1, (if r1.2.2 then 1 else 0) + r2.2.2)

/-! ## Gallery renderer (src/app.py lines 91-110)

`render_gallery(images, cols=4, max_size=(2000, 2000))` iterates
`for i, img in enumerate(images)`, placing each cell into
`columns[i % cols]`.  Inside a `try` it downloads the bytes, decodes them
with `Image.open`, downscales with `thumbnail` and shows the image with the
name as caption; the `except` arm shows `st.error` with the image name and
`st.caption` with the exception text.  The fallible fetch-and-decode step is
embedded as a function `load` returning `Except`, and the downscaling
`thumbnail` as a function on the decoded bitmap type. -/

/-- What one grid cell displays: a decoded, downscaled image with its
caption, or the error indicator (`st.error` text plus `st.caption` text). -/
inductive CellContent (α : Type) where
  | image (bitmap : α) (caption : String)
  | errorCell (text : String) (caption : String)
deriving DecidableEq, Repr

/-- One rendered grid cell: the column it was placed in and its content. -/
structure RenderedCell (α : Type) where
  column : Nat
  content : CellContent α
deriving DecidableEq, Repr

/-- The loop body of `render_gallery` for the image at index `i`. -/
def renderCell (load : ImageDescriptor → Except String α) (thumb : α → α)
    (cols i : Nat) (img : ImageDescriptor) : RenderedCell α :=
  { column := i % cols,
    content :=
      match load img with
      | .ok b => .image (thumb b) img.name
      | .error e => .errorCell ("Failed to load: " ++ img.name) e }

/-- The `for i, img in enumerate(images)` loop of `render_gallery`,
starting at index `k`. -/
def renderFrom (load : ImageDescriptor → Except String α) (thumb : α → α)
    (cols : Nat) : Nat → List ImageDescriptor → List (RenderedCell α)
  | _, [] => []
  | k, img :: rest =>
    renderCell load thumb cols k img :: renderFrom load thumb cols (k + 1) rest

/-- `render_gallery`: render every image of the page into its grid cell,
isolating per-image failures in the `except` arm. -/
def render_gallery (load : ImageDescriptor → Except String α) (thumb : α → α)
    (images : List ImageDescriptor) (cols : Nat) : List (RenderedCell α) :=
  renderFrom load thumb cols 0 images

/-! ## Session ordering and search filter (src/app.py lines 139-152)

`sessions = sorted(sessions, key=lambda x: x["name"], reverse=True)` sorts by
name descending (Python compares strings lexicographically by code point;
`sorted` is stable, embedded here as a stable insertion sort).  The search
filter keeps the sessions whose lowered name contains the search text, and
the selected session is the first list element whose name equals the chosen
name. -/

/-- Python string comparison `a <= b`: lexicographic on the code points. -/
def charListLe : List Char → List Char → Bool
  | [], _ => true
  | _ :: _, [] => false
  | a :: as, b :: bs => if a < b then true else if b < a then false else charListLe as bs

/-- `a <= b` on Python strings. -/
def strLe (a b : String) : Bool :=
  charListLe a.toList b.toList

/-- The descending-by-name order of
`sorted(sessions, key=lambda x: x["name"], reverse=True)`. -/
def sessionGe (a b : Folder) : Prop :=
  strLe b.name a.name = true

instance : DecidableRel sessionGe :=
  fun a b => inferInstanceAs (Decidable (strLe b.name a.name = true))

/-- The sort on line 139: stable, descending by name. -/
def sortSessionsDesc (ss : List Folder) : List Folder :=
  List.insertionSort sessionGe ss

/-- Python substring test `needle` begins `hay` (helper for `in`). -/
def charsStartWith : List Char → List Char → Bool
  | [], _ => true
  | _ :: _, [] => false
  | a :: as, b :: bs => a = b && charsStartWith as bs

/-- Python `needle in hay` on the underlying character lists. -/
def charsContains (needle : List Char) : List Char → Bool
  | [] => charsStartWith needle []
  | b :: bs => charsStartWith needle (b :: bs) || charsContains needle bs

/-- Python `c.lower()` for one character (ASCII, as produced by
`str.lower` on the names in play). -/
def lowerChars (cs : List Char) : List Char :=
  cs.map Char.toLower

/-- Line 143-144: `if search: sessions = [s for s in sessions if search in
s["name"].lower()]`, where `search` is the stripped, lowered input text. -/
def applySearch (search : String) (ss : List Folder) : List Folder :=
  if search.toList = [] then ss
  else ss.filter (fun s => charsContains search.toList (lowerChars s.name.toList))

/-- Case-insensitive substring match as the spec words it: the lowered text
occurs inside the lowered name. -/
def ciContains (name text : String) : Bool :=
  charsContains (lowerChars text.toList) (lowerChars name.toList)

/-- Line 150: `session_names = [s["name"] for s in sessions]`. -/
def session_names (ss : List Folder) : List String :=
  ss.map (fun s => s.name)

/-- Line 152: `next(s for s in sessions if s["name"] == selected_session_name)`
— the first session whose name equals the chosen name, if any. -/
def selected_session (ss : List Folder) (chosen : String) : Option Folder :=
  ss.find? (fun s => s.name == chosen)

end Seoulfie

namespace Seoulfie

/-- Claim C3: the pagination computation maps `(total, page_size, page)` to the
half-open slice `[start, end)` with `start = (page-1)*page_size`,
`end = min(start+page_size, total)` and `total_pages = ceil(total/page_size)`;
for `total = 95`, `page_size = 30`, `page = 2` it yields the slice `[30, 60)`
and `total_pages = 4`. -/
theorem pagination_slice_spec (total page_size page : Nat)
    (htotal : 1 ≤ total) (hps : 1 ≤ page_size) :
    total_pages total page_size = total ⌈/⌉ page_size
    ∧ page_start page page_size = (page - 1) * page_size
    ∧ page_end page page_size total = min ((page - 1) * page_size + page_size) total
    ∧ page_start 2 30 = 30 ∧ page_end 2 30 95 = 60 ∧ total_pages 95 30 = 4
    ∧ pageSlice (List.range 95) 2 30 = ((List.range 95).drop 30).take 30 := by
  refine ⟨?_, rfl, rfl, by decide, by decide, by decide, by decide⟩
  rw [Nat.ceilDiv_eq_add_pred_div, total_pages, max_eq_right]
  rw [Nat.one_le_div_iff (by omega)]
  omega

/-- Witness for C3 at `total = 95`, `page_size = 30`, `page = 2`. -/
theorem pagination_slice_spec_witness :
    total_pages 95 30 = 95 ⌈/⌉ 30
    ∧ page_start 2 30 = (2 - 1) * 30
    ∧ page_end 2 30 95 = min ((2 - 1) * 30 + 30) 95
    ∧ page_start 2 30 = 30 ∧ page_end 2 30 95 = 60 ∧ total_pages 95 30 = 4
    ∧ pageSlice (List.range 95) 2 30 = ((List.range 95).drop 30).take 30 :=
  pagination_slice_spec 95 30 2 (by decide) (by decide)

/-- Claim C4: after a change of `page_size` (or column count) the page is not
reset but clamped into `[1, total_pages]` recomputed from the new
`page_size`: a prior page above `total_pages` becomes `total_pages`, a prior
page already in range is kept, and `1 ≤ page ≤ total_pages` holds after every
transition. -/
theorem page_clamp_spec (prior total page_size : Nat) (hprior : 1 ≤ prior) :
    1 ≤ page_widget (some prior) total page_size
    ∧ page_widget (some prior) total page_size ≤ total_pages total page_size
    ∧ (total_pages total page_size < prior →
        page_widget (some prior) total page_size = total_pages total page_size)
    ∧ (prior ≤ total_pages total page_size →
        page_widget (some prior) total page_size = prior) := by
  simp only [page_widget, number_input, total_pages, Option.getD]
  omega

/-- Witness for C4 at `prior = 7`, `total = 95`, `page_size = 30`
(where `total_pages = 4 < 7`). -/
theorem page_clamp_spec_witness :
    1 ≤ page_widget (some 7) 95 30
    ∧ page_widget (some 7) 95 30 ≤ total_pages 95 30
    ∧ (total_pages 95 30 < 7 → page_widget (some 7) 95 30 = total_pages 95 30)
    ∧ (7 ≤ total_pages 95 30 → page_widget (some 7) 95 30 = 7) :=
  page_clamp_spec 7 95 30 (by decide)

/-- Claim C1: when the underlying download raises on every attempt,
`download_image_bytes` performs exactly 3 attempts in total and then
propagates the last encountered error to the caller. -/
theorem download_retry_bound (attempt : Nat → AttemptResult β) (e0 e1 e2 : DlError)
    (h0 : attempt 0 = .failure e0) (h1 : attempt 1 = .failure e1)
    (h2 : attempt 2 = .failure e2) :
    (download_image_bytes attempt).1 = .error (some e2)
    ∧ ((download_image_bytes attempt).2.countP TraceEvent.isAttempt) = 3 := by
  have hr : List.range 3 = [0, 1, 2] := rfl
  rw [download_image_bytes, hr]
  simp [downloadLoop, h0, h1, h2, TraceEvent.isAttempt]

/-- Witness for C1: a download failing all three attempts with a generic
exception makes exactly 3 attempts and ends with that error. -/
theorem download_retry_bound_witness :
    (@download_image_bytes Nat (fun _ => .failure (.otherError "boom"))).1
        = .error (some (.otherError "boom"))
    ∧ ((@download_image_bytes Nat (fun _ => .failure (.otherError "boom"))).2.countP
        TraceEvent.isAttempt) = 3 :=
  download_retry_bound (fun _ => .failure (.otherError "boom")) (.otherError "boom")
    (.otherError "boom") (.otherError "boom") rfl rfl rfl

/-- Claim C8: inside the retry loop, every failed attempt that raises an
SSL-layer error is immediately followed by a sleep of `0.8` time-units, and
every failed attempt that raises any other exception by a sleep of `0.5`
time-units; the duration is selected solely by this error-class distinction
(the function `backoff` depends only on the constructor). -/
theorem download_backoff_spec (attempt : Nat → AttemptResult β) (e : Nat → DlError)
    (k : Nat) (hk : k < 3) (hfail : ∀ j, j ≤ k → attempt j = .failure (e j)) :
    [TraceEvent.attemptCall k, TraceEvent.sleep (backoff (e k))]
        <:+: (download_image_bytes attempt).2
    ∧ (∀ m, backoff (.sslError m) = 8 / 10)
    ∧ (∀ m, backoff (.otherError m) = 5 / 10) := by
  refine ⟨?_, fun m => rfl, fun m => rfl⟩
  have hr : List.range 3 = [0, 1, 2] := rfl
  rw [download_image_bytes, hr]
  interval_cases k
  · have h0 := hfail 0 (by omega)
    simp only [downloadLoop, h0]
    exact ⟨[], _, rfl⟩
  · have h0 := hfail 0 (by omega)
    have h1 := hfail 1 (by omega)
    simp only [downloadLoop, h0, h1]
    exact ⟨[TraceEvent.attemptCall 0, TraceEvent.sleep (backoff (e 0))], _, rfl⟩
  · have h0 := hfail 0 (by omega)
    have h1 := hfail 1 (by omega)
    have h2 := hfail 2 (by omega)
    simp only [downloadLoop, h0, h1, h2]
    exact ⟨[TraceEvent.attemptCall 0, TraceEvent.sleep (backoff (e 0)),
            TraceEvent.attemptCall 1, TraceEvent.sleep (backoff (e 1))], _, rfl⟩

/-- Witness for C8: an SSL failure on the first attempt is followed by the
`0.8` sleep. -/
theorem download_backoff_spec_witness :
    [TraceEvent.attemptCall 0, TraceEvent.sleep (backoff (.sslError "handshake"))]
        <:+: (@download_image_bytes Nat (fun _ => .failure (.sslError "handshake"))).2
    ∧ (∀ m, backoff (.sslError m) = 8 / 10)
    ∧ (∀ m, backoff (.otherError m) = 5 / 10) :=
  download_backoff_spec (fun _ => .failure (.sslError "handshake"))
    (fun _ => .sslError "handshake") 0 (by decide) (fun _ _ => rfl)

/-- While the cached entry stays fresh, every further call is answered from
the cache: the stored value is returned, the cache is unchanged, and no
network call is made. -/
theorem callSeq_all_hits (ttl : Option Nat) (fetch : String → β) (key : String)
    (v : β) (t0 : Nat) (cache : List (String × CacheEntry β))
    (hv : cache.lookup key = some ⟨v, t0⟩)
    (ts : List Nat) (hwin : ∀ t ∈ ts, entryFresh ttl t t0 = true) :
    callSeq ttl fetch key ts cache = (List.replicate ts.length v, cache, 0) := by
  induction ts with
  | nil => rfl
  | cons t ts ih =>
    have hf : entryFresh ttl t t0 = true := hwin t (List.mem_cons_self t ts)
    have ihs := ih (fun u hu => hwin u (List.mem_cons_of_mem t hu))
    simp [callSeq, cachedCall, hv, hf, ihs, List.replicate_succ]

/-- Claim C2: for each cached operation, repeated calls with the same
argument within the time-to-live window perform exactly one underlying
network call, every call returning the fetched value; the folder-name and
list operations are configured with a 300-second time-to-live, while the
byte-download operation has none, so its entries stay fresh at every later
time until a global cache clear. -/
theorem cache_single_network_call (fetch : String → β) (key : String) (t1 : Nat)
    (rest : List Nat) (ttl : Option Nat)
    (hwin : ∀ t ∈ rest, entryFresh ttl t t1 = true) :
    ((callSeq ttl fetch key (t1 :: rest) []).2.2 = 1
      ∧ (callSeq ttl fetch key (t1 :: rest) []).1
          = List.replicate (rest.length + 1) (fetch key))
    ∧ get_folder_name_ttl = some 300 ∧ list_folders_ttl = some 300
    ∧ list_images_ttl = some 300 ∧ download_image_bytes_ttl = none
    ∧ (∀ now storedAt : Nat, entryFresh none now storedAt = true)
    ∧ (∀ now storedAt : Nat, now < storedAt + 300 →
        entryFresh (some 300) now storedAt = true) := by
  refine ⟨?_, rfl, rfl, rfl, rfl, fun _ _ => rfl, fun now storedAt h => by
    simp [entryFresh]; omega⟩
  have hmiss : cachedCall ttl fetch key t1 ([] : List (String × CacheEntry β))
      = (fetch key, [(key, ⟨fetch key, t1⟩)], true) := rfl
  have hhit : ([(key, (⟨fetch key, t1⟩ : CacheEntry β))]).lookup key
      = some ⟨fetch key, t1⟩ := by
    simp [List.lookup]
  have hrest := callSeq_all_hits ttl fetch key (fetch key) t1
    [(key, ⟨fetch key, t1⟩)] hhit rest hwin
  simp [callSeq, hmiss, hrest, List.replicate_succ]

/-- Witness for C2: three calls at seconds 0, 10 and 299 under the
300-second time-to-live make exactly one network call and all return the
fetched value. -/
theorem cache_single_network_call_witness :
    ((callSeq (some 300) (fun _ => (42 : Nat)) "file-1" (0 :: [10, 299]) []).2.2 = 1
      ∧ (callSeq (some 300) (fun _ => (42 : Nat)) "file-1" (0 :: [10, 299]) []).1
          = List.replicate ([10, 299].length + 1) ((fun _ => (42 : Nat)) "file-1"))
    ∧ get_folder_name_ttl = some 300 ∧ list_folders_ttl = some 300
    ∧ list_images_ttl = some 300 ∧ download_image_bytes_ttl = none
    ∧ (∀ now storedAt : Nat, entryFresh none now storedAt = true)
    ∧ (∀ now storedAt : Nat, now < storedAt + 300 →
        entryFresh (some 300) now storedAt = true) :=
  cache_single_network_call (fun _ => (42 : Nat)) "file-1" 0 [10, 299] (some 300)
    (by decide)

/-- The rendered page has one cell per image descriptor. -/
theorem renderFrom_length (load : ImageDescriptor → Except String α) (thumb : α → α)
    (cols : Nat) : ∀ (l : List ImageDescriptor) (k : Nat),
    (renderFrom load thumb cols k l).length = l.length := by
  intro l
  induction l with
  | nil => intro k; rfl
  | cons img rest ih => intro k; simp [renderFrom, ih (k + 1)]

/-- The cell at position `i` of the rendered page is the loop body applied
to the descriptor at position `i` (with the running index offset `k`). -/
theorem renderFrom_cell (load : ImageDescriptor → Except String α) (thumb : α → α)
    (cols : Nat) : ∀ (l : List ImageDescriptor) (k i : Nat),
    (renderFrom load thumb cols k l)[i]?
      = (l[i]?).map (fun img => renderCell load thumb cols (k + i) img) := by
  intro l
  induction l with
  | nil => intro k i; simp [renderFrom]
  | cons img rest ih =>
    intro k i
    cases i with
    | zero => simp [renderFrom]
    | succ i =>
      simp only [renderFrom, List.getElem?_cons_succ, ih (k + 1) i]
      have harith : k + 1 + i = k + (i + 1) := by omega
      rw [harith]

/-- Claim C9: the image at list index `i` is placed into grid column
`i % cols`, assigning images to columns round-robin in list order. -/
theorem grid_column_assignment (load : ImageDescriptor → Except String α)
    (thumb : α → α) (images : List ImageDescriptor) (cols i : Nat)
    (hi : i < images.length) :
    ((render_gallery load thumb images cols)[i]?).map RenderedCell.column
      = some (i % cols) := by
  rw [render_gallery, renderFrom_cell]
  simp [List.getElem?_eq_getElem hi, renderCell]

/-- Witness for C9: with four columns, the image at index 5 of a six-image
page lands in column `5 % 4 = 1`. -/
theorem grid_column_assignment_witness :
    ((render_gallery (fun _ => Except.ok (0 : Nat)) id
        (List.replicate 6 ⟨"i", "n", "image/jpeg"⟩) 4)[5]?).map RenderedCell.column
      = some (5 % 4) :=
  grid_column_assignment (fun _ => Except.ok (0 : Nat)) id
    (List.replicate 6 ⟨"i", "n", "image/jpeg"⟩) 4 5 (by decide)

/-- Claim C5: on a page where exactly one descriptor fails to fetch or
decode, the renderer yields one cell per descriptor (no exception escapes),
the failing position shows the error cell with that image name and the error
message, and every other position shows a successfully rendered image with
its name as caption. -/
theorem failure_isolation (load : ImageDescriptor → Except String α) (thumb : α → α)
    (images : List ImageDescriptor) (cols j : Nat) (msg : String)
    (hj : j < images.length)
    (hfail : load (images.get ⟨j, hj⟩) = .error msg)
    (hok : ∀ i (hi : i < images.length), i ≠ j → ∃ b, load (images.get ⟨i, hi⟩) = .ok b) :
    (render_gallery load thumb images cols).length = images.length
    ∧ (render_gallery load thumb images cols)[j]?
        = some ⟨j % cols,
            .errorCell ("Failed to load: " ++ (images.get ⟨j, hj⟩).name) msg⟩
    ∧ ∀ i (hi : i < images.length), i ≠ j → ∃ b,
        (render_gallery load thumb images cols)[i]?
          = some ⟨i % cols, .image (thumb b) (images.get ⟨i, hi⟩).name⟩ := by
  refine ⟨renderFrom_length load thumb cols images 0, ?_, ?_⟩
  · rw [render_gallery, renderFrom_cell]
    simp only [List.get_eq_getElem] at hfail
    simp [List.getElem?_eq_getElem hj, renderCell, hfail]
  · intro i hi hne
    obtain ⟨b, hb⟩ := hok i hi hne
    refine ⟨b, ?_⟩
    rw [render_gallery, renderFrom_cell]
    simp only [List.get_eq_getElem] at hb
    simp [List.getElem?_eq_getElem hi, renderCell, hb]

/-- Witness for C5: on a two-image page where only the second image fails,
the renderer yields two cells, an error cell at index 1 and a successful
image at index 0. -/
theorem failure_isolation_witness :
    (render_gallery
        (fun d => if d.id = "img2" then Except.error "boom" else Except.ok (0 : Nat))
        id [⟨"img1", "a.jpg", "image/jpeg"⟩, ⟨"img2", "b.jpg", "image/jpeg"⟩] 4).length
      = ([⟨"img1", "a.jpg", "image/jpeg"⟩, ⟨"img2", "b.jpg", "image/jpeg"⟩]
          : List ImageDescriptor).length
    ∧ (render_gallery
        (fun d => if d.id = "img2" then Except.error "boom" else Except.ok (0 : Nat))
        id [⟨"img1", "a.jpg", "image/jpeg"⟩, ⟨"img2", "b.jpg", "image/jpeg"⟩] 4)[1]?
        = some ⟨1 % 4,
            .errorCell ("Failed to load: " ++
              (([⟨"img1", "a.jpg", "image/jpeg"⟩, ⟨"img2", "b.jpg", "image/jpeg"⟩]
                : List ImageDescriptor).get ⟨1, by decide⟩).name) "boom"⟩
    ∧ ∀ i (hi : i < ([⟨"img1", "a.jpg", "image/jpeg"⟩, ⟨"img2", "b.jpg", "image/jpeg"⟩]
          : List ImageDescriptor).length), i ≠ 1 → ∃ b,
        (render_gallery
          (fun d => if d.id = "img2" then Except.error "boom" else Except.ok (0 : Nat))
          id [⟨"img1", "a.jpg", "image/jpeg"⟩, ⟨"img2", "b.jpg", "image/jpeg"⟩] 4)[i]?
          = some ⟨i % 4, .image (id b)
              (([⟨"img1", "a.jpg", "image/jpeg"⟩, ⟨"img2", "b.jpg", "image/jpeg"⟩]
                : List ImageDescriptor).get ⟨i, hi⟩).name⟩ :=
  failure_isolation
    (fun d => if d.id = "img2" then Except.error "boom" else Except.ok (0 : Nat))
    id [⟨"img1", "a.jpg", "image/jpeg"⟩, ⟨"img2", "b.jpg", "image/jpeg"⟩] 4 1 "boom"
    (by decide) rfl
    (fun i hi hne => by
      have h2 : i < 2 := by simpa using hi
      have h0 : i = 0 := by omega
      subst h0
      exact ⟨0, rfl⟩)

/-- Python string comparison is total. -/
theorem charListLe_total : ∀ as bs, charListLe as bs = true ∨ charListLe bs as = true := by
  intro as
  induction as with
  | nil => intro bs; left; rfl
  | cons a as ih =>
    intro bs
    cases bs with
    | nil => right; rfl
    | cons b bs =>
      rcases lt_trichotomy a b with h | h | h
      · left; simp [charListLe, h]
      · subst h
        rcases ih bs with h2 | h2
        · left; simp [charListLe, lt_irrefl, h2]
        · right; simp [charListLe, lt_irrefl, h2]
      · right; simp [charListLe, h]

/-- Python string comparison is transitive. -/
theorem charListLe_trans : ∀ as bs cs, charListLe as bs = true →
    charListLe bs cs = true → charListLe as cs = true := by
  intro as
  induction as with
  | nil => intro bs cs h1 h2; rfl
  | cons a as ih =>
    intro bs cs h1 h2
    cases bs with
    | nil => exact absurd h1 (by simp [charListLe])
    | cons b bs =>
      cases cs with
      | nil => exact absurd h2 (by simp [charListLe])
      | cons c cs =>
        rw [charListLe] at h1 h2 ⊢
        rcases lt_trichotomy a b with hab | hab | hab
        · rcases lt_trichotomy b c with hbc | hbc | hbc
          · have hac : a < c := lt_trans hab hbc
            simp [hac]
          · subst hbc; simp [hab]
          · simp [hbc, lt_asymm hbc] at h2
        · subst hab
          simp [lt_irrefl] at h1
          rcases lt_trichotomy a c with hac | hac | hac
          · simp [hac]
          · subst hac
            simp [lt_irrefl] at h2 ⊢
            exact ih bs cs h1 h2
          · simp [hac, lt_asymm hac] at h2
        · simp [hab, lt_asymm hab] at h1

/-- Claim C6: after listing and before any search filter, the session list
is sorted by name in descending order (a stable permutation of the listed
sessions); on the names `2024-01-10`, `2024-03-05`, `2023-12-01` the
post-sort order is `2024-03-05`, `2024-01-10`, `2023-12-01`. -/
theorem sessions_sorted_desc (ss : List Folder) :
    List.Sorted sessionGe (sortSessionsDesc ss)
    ∧ (sortSessionsDesc ss).Perm ss
    ∧ (sortSessionsDesc
        [⟨"f1", "2024-01-10"⟩, ⟨"f2", "2024-03-05"⟩, ⟨"f3", "2023-12-01"⟩]).map
          Folder.name
        = ["2024-03-05", "2024-01-10", "2023-12-01"] := by
  haveI : IsTotal Folder sessionGe :=
    ⟨fun a b => charListLe_total b.name.toList a.name.toList⟩
  haveI : IsTrans Folder sessionGe :=
    ⟨fun a b c h1 h2 => charListLe_trans c.name.toList b.name.toList a.name.toList h2 h1⟩
  exact ⟨List.sorted_insertionSort sessionGe ss,
    List.perm_insertionSort sessionGe ss, by decide⟩

/-- Claim C7: for a non-empty effective search text (already stripped and
lowered, as the `search` variable of line 142 is), the filter keeps exactly
the sessions whose name contains the text as a case-insensitive substring,
preserving relative order; sessions named `Smith Wedding` and `Jones Party`
filtered with `smith` yield exactly the `Smith Wedding` session. -/
theorem search_filter_spec (search : String) (ss : List Folder)
    (hne : search.toList ≠ []) (hlow : lowerChars search.toList = search.toList) :
    applySearch search ss = ss.filter (fun s => ciContains s.name search)
    ∧ (applySearch search ss).Sublist ss
    ∧ applySearch "smith" [⟨"s1", "Smith Wedding"⟩, ⟨"s2", "Jones Party"⟩]
        = [⟨"s1", "Smith Wedding"⟩] := by
  have hfun : (fun s : Folder => charsContains search.toList (lowerChars s.name.toList))
      = (fun s : Folder => ciContains s.name search) := by
    funext s
    rw [ciContains, hlow]
  refine ⟨?_, ?_, by decide⟩
  · rw [applySearch, if_neg hne, hfun]
  · rw [applySearch, if_neg hne]
    exact List.filter_sublist ss

/-- Witness for C7 with search text `smith` on the two example sessions. -/
theorem search_filter_spec_witness :
    applySearch "smith" [⟨"s1", "Smith Wedding"⟩, ⟨"s2", "Jones Party"⟩]
        = ([⟨"s1", "Smith Wedding"⟩, ⟨"s2", "Jones Party"⟩] : List Folder).filter
            (fun s => ciContains s.name "smith")
    ∧ (applySearch "smith" [⟨"s1", "Smith Wedding"⟩, ⟨"s2", "Jones Party"⟩]).Sublist
        [⟨"s1", "Smith Wedding"⟩, ⟨"s2", "Jones Party"⟩]
    ∧ applySearch "smith" [⟨"s1", "Smith Wedding"⟩, ⟨"s2", "Jones Party"⟩]
        = [⟨"s1", "Smith Wedding"⟩] :=
  search_filter_spec "smith" [⟨"s1", "Smith Wedding"⟩, ⟨"s2", "Jones Party"⟩]
    (by decide) (by decide)

/-- Claim C10: the selected session is resolved by name equality: whenever
the chosen name occurs in the session list, the session passed onward is the
first element whose name equals it — so of two sessions sharing a name, only
the earlier one is ever selected, whatever their ids. -/
theorem selected_session_first_match (ss : List Folder) (chosen : String)
    (h : chosen ∈ session_names ss) :
    ∃ i, ∃ hi : i < ss.length,
      selected_session ss chosen = some (ss.get ⟨i, hi⟩)
      ∧ (ss.get ⟨i, hi⟩).name = chosen
      ∧ ∀ j (hj : j < ss.length), (ss.get ⟨j, hj⟩).name = chosen → i ≤ j := by
  induction ss with
  | nil => simp [session_names] at h
  | cons s t ih =>
    by_cases hs : s.name = chosen
    · refine ⟨0, by simp, ?_, hs, fun j hj hname => Nat.zero_le j⟩
      simp [selected_session, List.find?, hs]
    · have hmem : chosen ∈ session_names t := by
        simp [session_names] at h ⊢
        rcases h with h | h
        · exact absurd h.symm hs
        · exact h
      obtain ⟨i, hi, hfind, hname, hfirst⟩ := ih hmem
      refine ⟨i + 1, by simpa using Nat.succ_lt_succ hi, ?_, ?_, ?_⟩
      · have hbeq : (s.name == chosen) = false := by simp [hs]
        simp only [selected_session, List.find?, hbeq]
        simpa [selected_session] using hfind
      · simpa using hname
      · intro j hj hnamej
        cases j with
        | zero => exact absurd (by simpa using hnamej) hs
        | succ j =>
          have hj2 : j < t.length := by simpa using hj
          have := hfirst j hj2 (by simpa using hnamej)
          omega

/-- Witness for C10: of two sessions both named `A`, the first is selected. -/
theorem selected_session_first_match_witness :
    ∃ i, ∃ hi : i < ([⟨"id1", "A"⟩, ⟨"id2", "A"⟩] : List Folder).length,
      selected_session [⟨"id1", "A"⟩, ⟨"id2", "A"⟩] "A"
          = some (([⟨"id1", "A"⟩, ⟨"id2", "A"⟩] : List Folder).get ⟨i, hi⟩)
      ∧ (([⟨"id1", "A"⟩, ⟨"id2", "A"⟩] : List Folder).get ⟨i, hi⟩).name = "A"
      ∧ ∀ j (hj : j < ([⟨"id1", "A"⟩, ⟨"id2", "A"⟩] : List Folder).length),
          (([⟨"id1", "A"⟩, ⟨"id2", "A"⟩] : List Folder).get ⟨j, hj⟩).name = "A" → i ≤ j :=
  selected_session_first_match [⟨"id1", "A"⟩, ⟨"id2", "A"⟩] "A" (by decide)

end Seoulfie
